import Mathlib

/-!
Verification development for the homelab-monitor repository (Go).

The dashboard (src/dashboard/main.go) polls a fixed set of nodes, keeps a
bounded per-node history of samples, and serves query/export endpoints.
The agent (src/agent/main.go) serves local resource metrics, including a
network-throughput rate computed from uint64 counters.

The Go code is shallowly embedded below: pure computations become Lean
functions, the store's map-under-lock becomes an association list with
explicit key presence (matching Go map semantics where a missing key reads
as the zero value), Go float64 fields are modelled as rationals, time.Time
instants as nanoseconds since the Unix epoch, and network I/O outcomes are
supplied by an explicit environment record.
-/

namespace Monitor

/-- Alert thresholds (dashboard `Alerts`). -/
structure Alerts where
  cpuPct : ℚ
  memPct : ℚ
  diskPct : ℚ
  txBps : ℚ
  rxBps : ℚ
deriving DecidableEq, Repr

/-- A configured node (dashboard `Node`); `alerts` is a nullable pointer in Go. -/
structure Node where
  name : String
  url : String
  group : String
  alerts : Option Alerts
deriving DecidableEq, Repr

/-- Network throughput reported by the agent (`NetStat`). -/
structure NetStat where
  txBytesPerSec : ℚ
  rxBytesPerSec : ℚ
deriving DecidableEq, Repr

/-- Per-mount disk usage (`DiskStat`). -/
structure DiskStat where
  mountpoint : String
  usedPct : ℚ
  totalBytes : ℕ
  usedBytes : ℕ
deriving DecidableEq, Repr

/-- Metrics payload decoded from the agent (`AgentMetrics`). -/
structure AgentMetrics where
  hostname : String
  timestampISO : String
  cpuPercent : ℚ
  memPercent : ℚ
  uptimeSec : ℕ
  disks : List DiskStat
  net : NetStat
deriving DecidableEq, Repr

/-- The Go zero value of `AgentMetrics` (what `AgentMetrics{}` denotes). -/
def AgentMetrics.zero : AgentMetrics :=
  { hostname := "", timestampISO := "", cpuPercent := 0, memPercent := 0,
    uptimeSec := 0, disks := [], net := { txBytesPerSec := 0, rxBytesPerSec := 0 } }

/-- One probe outcome (dashboard `Sample`); `time` is nanoseconds since the
Unix epoch (time.Time), `error` is the Go string field whose zero value ""
means "no error" (json omitempty). -/
structure Sample where
  time : ℕ
  agent : AgentMetrics
  latencyMs : ℤ
  error : String
  node : Node
deriving DecidableEq, Repr

/-- Association-list lookup, modelling a read `m[k]` of a Go map key that
returns `none` exactly when the key is absent. -/
def lookupAssoc {α : Type} : List (String × α) → String → Option α
  | [], _ => none
  | (k, v) :: rest, key => if k = key then some v else lookupAssoc rest key

/-- Association-list write, modelling `m[k] = v` on a Go map. -/
def setAssoc {α : Type} : List (String × α) → String → α → List (String × α)
  | [], key, v => [(key, v)]
  | (k, w) :: rest, key, v =>
      if k = key then (key, v) :: rest else (k, w) :: setAssoc rest key v

/-- Reading `s.history[name]` in Go yields the zero value (nil slice) when
the key is absent; at the list level that is the empty list. -/
def histOf (hist : List (String × List Sample)) (name : String) : List Sample :=
  (lookupAssoc hist name).getD []

/-- The dashboard's shared state (`State`): the configured history cap
(`Config.HistoryLimit` after `loadConfig` normalization, hence a natural
number that is positive in any run), the configured nodes (`Config.Nodes`),
and the two maps guarded by the mutex. -/
structure State where
  historyLimit : ℕ
  nodes : List Node
  history : List (String × List Sample)
  latest : List (String × Sample)

/-- A fresh state as built in `main`: empty history and latest maps. -/
def initState (limit : ℕ) (nodes : List Node) : State :=
  { historyLimit := limit, nodes := nodes, history := [], latest := [] }

/-- The commit step of `pollAll` (dashboard main.go lines 176-183):
    h := append(s.history[n.Name], samp)
    if len(h) > s.Config.HistoryLimit { h = h[len(h)-s.Config.HistoryLimit:] }
    s.history[n.Name] = h
    s.latest[n.Name] = samp -/
def State.commit (st : State) (n : Node) (samp : Sample) : State :=
  let h0 := histOf st.history n.name ++ [samp]
  let h := if st.historyLimit < h0.length then h0.drop (h0.length - st.historyLimit) else h0
  { st with
    history := setAssoc st.history n.name h
    latest := setAssoc st.latest n.name samp }

/-- Any finite sequence of commits applied to a fresh state. -/
def commitAll (limit : ℕ) (nodes : List Node) (ops : List (Node × Sample)) : State :=
  ops.foldl (fun st p => st.commit p.1 p.2) (initState limit nodes)

/-- `strings.Contains(s, ":")`: whether some character of `s` is a colon. -/
def hasColon (s : String) : Bool := s.data.any (fun c => c == ':')

/-- The dial address computed by `fetchOnce` (dashboard main.go lines
118-122): the parsed URL's host, with ":80" appended when the host contains
no colon:
    hostPort := u.Host
    if !strings.Contains(hostPort, ":") { hostPort = hostPort + ":80" } -/
def dialTarget (host : String) : String :=
  if !(hasColon host) then host ++ ":80" else host

/-- The URL of the application-level metrics fetch (dashboard main.go line
131): the node's configured base address verbatim with "/metrics" appended. -/
def metricsURL (n : Node) : String := n.url ++ "/metrics"

/-- Environment supplying the outcome of each fallible step of one probe:
the url.Parse outcome, the parsed host, the TCP dial outcome at
`dialTarget host`, the HTTP GET outcome at `metricsURL n`, the JSON decode
outcome, and the measured elapsed milliseconds at the success point. Error
outcomes carry the Go error message string. -/
structure ProbeEnv where
  parseErr : Option String
  host : String
  dialErr : Option String
  httpErr : Option String
  decodeRes : Except String AgentMetrics
  elapsedMs : ℤ
deriving Repr

/-- The triple returned by the Go `fetchOnce` (metrics, latency, error). -/
structure FetchResult where
  am : AgentMetrics
  lat : ℤ
  err : Option String
deriving DecidableEq, Repr

/-- `fetchOnce` (dashboard main.go lines 111-144): each failure path (URL
parse, TCP dial, HTTP fetch, body decode) returns the zero metrics, a zero
latency and the error; the success path returns the decoded metrics and the
elapsed time since the probe started. -/
def fetchOnce (n : Node) (env : ProbeEnv) : FetchResult :=
  match env.parseErr with
  | some e => { am := AgentMetrics.zero, lat := 0, err := some e }
  | none =>
    let _hostPort := dialTarget env.host
    match env.dialErr with
    | some e => { am := AgentMetrics.zero, lat := 0, err := some e }
    | none =>
      let _url := metricsURL n
      match env.httpErr with
      | some e => { am := AgentMetrics.zero, lat := 0, err := some e }
      | none =>
        match env.decodeRes with
        | Except.error e => { am := AgentMetrics.zero, lat := 0, err := some e }
        | Except.ok am => { am := am, lat := env.elapsedMs, err := none }

/-- The sample constructed inside `pollAll` (dashboard main.go lines
167-175): commit-time wall clock, the fetched metrics and latency, the
node, and the error message when the probe failed (the zero string ""
otherwise). -/
def mkSample (now : ℕ) (n : Node) (r : FetchResult) : Sample :=
  { time := now, agent := r.am, latencyMs := r.lat,
    error := r.err.getD "", node := n }

/-- Go errors carry non-empty messages; this is the (decidable) assumption
that every error outcome supplied by the environment has a non-empty
message, needed to read "sample has an error" off the `error` string field. -/
def ProbeEnv.errsNonempty (e : ProbeEnv) : Bool :=
  e.parseErr.all (fun s => !(s == "")) && e.dialErr.all (fun s => !(s == ""))
  && e.httpErr.all (fun s => !(s == ""))
  && (match e.decodeRes with
      | Except.error s => !(s == "")
      | Except.ok _ => true)

/-- Left-pad a string with zero characters to width `w`. -/
def padLeftZeros (s : String) (w : ℕ) : String :=
  String.mk (List.replicate (w - s.length) '0') ++ s

/-- Gregorian date (year, month, day) from days since the Unix epoch
(civil-from-days), used to render RFC 3339 timestamps for post-1970
instants. -/
def civilFromDays (z0 : ℕ) : ℕ × ℕ × ℕ :=
  let z := z0 + 719468
  let era := z / 146097
  let doe := z % 146097
  let yoe := (doe - doe / 1460 + doe / 36524 - doe / 146096) / 365
  let doy := doe - (365 * yoe + yoe / 4 - yoe / 100)
  let mp := (5 * doy + 2) / 153
  let d := doy - (153 * mp + 2) / 5 + 1
  let m := if mp < 10 then mp + 3 else mp - 9
  let y := if m ≤ 2 then yoe + era * 400 + 1 else yoe + era * 400
  (y, m, d)

def pad2 (n : ℕ) : String := padLeftZeros (toString n) 2

def pad4 (n : ℕ) : String := padLeftZeros (toString n) 4

/-- "YYYY-MM-DDThh:mm:ss" in UTC for a time `sec` seconds after the epoch. -/
def rfc3339Core (sec : ℕ) : String :=
  let days := sec / 86400
  let sod := sec % 86400
  let ymd := civilFromDays days
  pad4 ymd.1 ++ "-" ++ pad2 ymd.2.1 ++ "-" ++ pad2 ymd.2.2 ++ "T"
    ++ pad2 (sod / 3600) ++ ":" ++ pad2 (sod % 3600 / 60) ++ ":" ++ pad2 (sod % 60)

/-- `t.UTC().Format(time.RFC3339)` for `tns` nanoseconds after the epoch:
whole seconds only, "Z" offset (the sub-second part is dropped). -/
def rfc3339UTC (tns : ℕ) : String := rfc3339Core (tns / 1000000000) ++ "Z"

/-- Drop trailing zero characters. -/
def stripTrailingZeros (s : String) : String :=
  String.mk ((s.data.reverse.dropWhile (fun c => c == '0')).reverse)

/-- `time.Time`'s JSON rendering (RFC3339Nano, UTC): full nanosecond
precision with trailing zeros trimmed. -/
def rfc3339NanoUTC (tns : ℕ) : String :=
  let ns := tns % 1000000000
  if ns = 0 then rfc3339Core (tns / 1000000000) ++ "Z"
  else rfc3339Core (tns / 1000000000) ++ "."
        ++ stripTrailingZeros (padLeftZeros (toString ns) 9) ++ "Z"

/-- Round half to even to an integer, the rounding used by Go's `%.*f`
formatting. -/
def roundHalfEven (q : ℚ) : ℤ :=
  if q - ⌊q⌋ < 1/2 then ⌊q⌋
  else if 1/2 < q - ⌊q⌋ then ⌊q⌋ + 1
  else if ⌊q⌋ % 2 = 0 then ⌊q⌋ else ⌊q⌋ + 1

/-- The rational value denoted by the cell `fmt.Sprintf("%.*f", d, x)`. -/
def quantize (d : ℕ) (q : ℚ) : ℚ := (roundHalfEven (q * 10 ^ d) : ℚ) / 10 ^ d

/-- `fmt.Sprintf("%.*f", d, x)`: fixed-point decimal rendering. -/
def fmtF (d : ℕ) (q : ℚ) : String :=
  let n := roundHalfEven (q * 10 ^ d)
  let sign := if n < 0 then "-" else ""
  let m := n.natAbs
  if d = 0 then sign ++ toString m
  else sign ++ toString (m / 10 ^ d) ++ "." ++ padLeftZeros (toString (m % 10 ^ d)) d

/-- The CSV header row written by `handleExportCSV` (main.go line 259). -/
def csvHeader : List String :=
  ["time", "node", "group", "latency_ms", "cpu_pct", "mem_pct",
   "tx_bps", "rx_bps", "uptime_sec"]

/-- One CSV data row (dashboard main.go lines 262-272). -/
def csvRowStrings (n : Node) (samp : Sample) : List String :=
  [rfc3339UTC samp.time, n.name, n.group, toString samp.latencyMs,
   fmtF 2 samp.agent.cpuPercent, fmtF 2 samp.agent.memPercent,
   fmtF 0 samp.agent.net.txBytesPerSec, fmtF 0 samp.agent.net.rxBytesPerSec,
   toString samp.agent.uptimeSec]

/-- `handleExportCSV` (dashboard main.go lines 251-275) as the sequence of
CSV records it writes: the header, then one row per historical sample,
iterating the configured nodes in order. -/
def handleExportCSV (st : State) : List (List String) :=
  csvHeader :: st.nodes.flatMap (fun n => (histOf st.history n.name).map (csvRowStrings n))

/-- A JSON value; numbers are modelled as rationals (Go marshals float64 by
shortest round-trip decimal and int64/uint64 exactly). -/
inductive Json where
  | null : Json
  | str : String → Json
  | num : ℚ → Json
  | arr : List Json → Json
  | obj : List (String × Json) → Json

def encodeNet (x : NetStat) : Json :=
  Json.obj [("tx_bytes_per_sec", Json.num x.txBytesPerSec),
            ("rx_bytes_per_sec", Json.num x.rxBytesPerSec)]

def encodeDisk (d : DiskStat) : Json :=
  Json.obj [("mountpoint", Json.str d.mountpoint), ("used_pct", Json.num d.usedPct),
            ("total_bytes", Json.num d.totalBytes), ("used_bytes", Json.num d.usedBytes)]

def encodeAgent (a : AgentMetrics) : Json :=
  Json.obj [("hostname", Json.str a.hostname), ("timestamp_iso", Json.str a.timestampISO),
            ("cpu_percent", Json.num a.cpuPercent), ("mem_percent", Json.num a.memPercent),
            ("uptime_sec", Json.num a.uptimeSec),
            ("disks", Json.arr (a.disks.map encodeDisk)), ("net", encodeNet a.net)]

def encodeAlerts (al : Alerts) : Json :=
  Json.obj [("cpu_pct", Json.num al.cpuPct), ("mem_pct", Json.num al.memPct),
            ("disk_pct", Json.num al.diskPct), ("tx_bps", Json.num al.txBps),
            ("rx_bps", Json.num al.rxBps)]

def encodeNode (n : Node) : Json :=
  Json.obj [("name", Json.str n.name), ("url", Json.str n.url),
            ("group", Json.str n.group),
            ("alerts", match n.alerts with
                       | none => Json.null
                       | some a => encodeAlerts a)]

/-- Go `json.Marshal` of a `Sample`: `time.Time` renders as an RFC3339Nano
string and the `error` field has `omitempty`. -/
def encodeSample (s : Sample) : Json :=
  Json.obj ([("time", Json.str (rfc3339NanoUTC s.time)), ("agent", encodeAgent s.agent),
             ("latency_ms", Json.num s.latencyMs)]
            ++ (if s.error = "" then [] else [("error", Json.str s.error)])
            ++ [("node", encodeNode s.node)])

/-- `handleHistory` (dashboard main.go lines 240-249): with a non-empty
`node` query parameter it JSON-encodes `s.history[name]` — the nil slice
when the key is absent, which Go's encoding/json renders as JSON null;
without the parameter it encodes the whole map as an object. -/
def handleHistory (st : State) (nameParam : String) : Json :=
  if nameParam ≠ "" then
    match lookupAssoc st.history nameParam with
    | none => Json.null
    | some l => Json.arr (l.map encodeSample)
  else
    Json.obj (st.history.map (fun p => (p.1, Json.arr (p.2.map encodeSample))))

/-- The information content of one CSV data row: the value each formatted
cell denotes (a "%.2f" cell denotes a multiple of 1/100, a "%.0f" cell an
integer, the RFC 3339 time cell whole seconds). -/
structure CsvRow where
  timeSec : ℕ
  nodeName : String
  group : String
  latencyMs : ℤ
  cpuPct : ℚ
  memPct : ℚ
  txBps : ℚ
  rxBps : ℚ
  uptimeSec : ℕ
deriving DecidableEq, Repr

/-- The values carried by the CSV cells `handleExportCSV` writes for one
sample (main.go lines 262-272). -/
def csvEncodeSample (n : Node) (s : Sample) : CsvRow :=
  { timeSec := s.time / 1000000000, nodeName := n.name, group := n.group,
    latencyMs := s.latencyMs, cpuPct := quantize 2 s.agent.cpuPercent,
    memPct := quantize 2 s.agent.memPercent,
    txBps := quantize 0 s.agent.net.txBytesPerSec,
    rxBps := quantize 0 s.agent.net.rxBytesPerSec,
    uptimeSec := s.agent.uptimeSec }

/-- Reading a Sample back from a decoded CSV row (the CSV carries no url,
hostname, disk or error information). -/
def csvDecodeSample (r : CsvRow) : Sample :=
  { time := r.timeSec * 1000000000,
    agent := { AgentMetrics.zero with
               cpuPercent := r.cpuPct, memPercent := r.memPct,
               uptimeSec := r.uptimeSec,
               net := { txBytesPerSec := r.txBps, rxBytesPerSec := r.rxBps } },
    latencyMs := r.latencyMs, error := "",
    node := { name := r.nodeName, url := "", group := r.group, alerts := none } }

/-- The fields of a Sample named by the round-trip claim. -/
structure ExportFields where
  timeNanos : ℕ
  latencyMs : ℤ
  cpuPercent : ℚ
  memPercent : ℚ
  txBps : ℚ
  rxBps : ℚ
  uptimeSec : ℕ
deriving DecidableEq, Repr

def Sample.exportFields (s : Sample) : ExportFields :=
  ⟨s.time, s.latencyMs, s.agent.cpuPercent, s.agent.memPercent,
   s.agent.net.txBytesPerSec, s.agent.net.rxBytesPerSec, s.agent.uptimeSec⟩

/-- `handleExportJSON` writes `json.NewEncoder(w).Encode(s.history)`. For
the listed fields this is lossless: float64 marshals via shortest
round-trip decimals, int64/uint64 exactly, time.Time as RFC3339Nano with
full nanoseconds. Its information content per sample is the exact values. -/
def jsonExportSample (s : Sample) : ExportFields := s.exportFields

/-- Decoding the JSON export recovers those exact values. -/
def jsonDecodeSample (f : ExportFields) : ExportFields := f

-- Concrete fixtures used by witness theorems.

def nodeEx : Node :=
  { name := "pi4", url := "http://192.168.1.7:9876", group := "lan", alerts := none }

def nodeEx2 : Node :=
  { name := "nas", url := "http://192.168.1.8:9876", group := "lan", alerts := none }

def sampleEx : Sample :=
  { time := 1700000000000000000, agent := AgentMetrics.zero, latencyMs := 12,
    error := "", node := nodeEx }

/-- A sample whose tx rate has a fractional part (0.3 bytes/sec) and whose
timestamp has a 0.5 s sub-second component. -/
def sampleFracEx : Sample :=
  { time := 1700000000500000000,
    agent := { AgentMetrics.zero with
               cpuPercent := 37/2, memPercent := 55, uptimeSec := 4242,
               net := { txBytesPerSec := 3/10, rxBytesPerSec := 0 } },
    latencyMs := 12, error := "", node := nodeEx }

/-- A probe environment in which the TCP dial is refused. -/
def envDialFailEx : ProbeEnv :=
  { parseErr := none, host := "192.168.1.7", dialErr := some "connection refused",
    httpErr := none, decodeRes := Except.ok AgentMetrics.zero, elapsedMs := 7 }

/-- A probe environment whose parsed host carries an explicit port. -/
def envPortEx : ProbeEnv :=
  { parseErr := none, host := "192.168.1.7:9876", dialErr := none,
    httpErr := none, decodeRes := Except.ok AgentMetrics.zero, elapsedMs := 7 }

/-- Package-level mutable state of the agent's rate computation (agent
main.go: `lastTx, lastRx uint64` and `lastTime time.Time`); `lastTime =
none` models the zero time.Time, and times are seconds as rationals. -/
structure NetAgentState where
  lastTx : ℕ
  lastRx : ℕ
  lastTime : Option ℚ
deriving Repr

/-- Environment for one `computeNet` call: the wall clock and the summed
interface counters read by the first `sampleNet()` call, and the ones read
by the second call issued after the 200 ms smoothing sleep (consulted only
when the first elapsed window is shorter than 0.5 s). -/
structure NetEnv where
  now1 : ℚ
  tx1 : ℕ
  rx1 : ℕ
  now2 : ℚ
  tx2 : ℕ
  rx2 : ℕ
deriving Repr

/-- uint64 subtraction `a - b` with wrap-around modulo 2^64, as performed
on the byte counters in `computeNet` (`tx - lastTx` on uint64). -/
def sub64 (a b : ℕ) : ℕ := (a % 2 ^ 64 + (2 ^ 64 - b % 2 ^ 64)) % 2 ^ 64

/-- `computeNet` (agent main.go lines 106-137): on the first call (zero
lastTime) record the readings and report zero rates; otherwise compute the
elapsed window since the previous call, re-sample after a short sleep when
the window is under 0.5 s, clamp a non-positive window to 1 s, and report
the wrapped uint64 counter deltas divided by the window. -/
def computeNet (st : NetAgentState) (env : NetEnv) : NetStat × NetAgentState :=
  match st.lastTime with
  | none =>
      ({ txBytesPerSec := 0, rxBytesPerSec := 0 },
       { lastTx := env.tx1, lastRx := env.rx1, lastTime := some env.now1 })
  | some t0 =>
      let tooSoon := env.now1 - t0 < 1/2
      let now := if tooSoon then env.now2 else env.now1
      let tx := if tooSoon then env.tx2 else env.tx1
      let rx := if tooSoon then env.rx2 else env.rx1
      let elapsed0 := now - t0
      let elapsed := if elapsed0 ≤ 0 then 1 else elapsed0
      let dTx : ℚ := (sub64 tx st.lastTx : ℕ)
      let dRx : ℚ := (sub64 rx st.lastRx : ℕ)
      ({ txBytesPerSec := dTx / elapsed, rxBytesPerSec := dRx / elapsed },
       { lastTx := tx, lastRx := rx, lastTime := some now })

-- Basic lemmas about the association-list map.

theorem lookupAssoc_setAssoc_self {α : Type} (m : List (String × α)) (k : String) (v : α) :
    lookupAssoc (setAssoc m k v) k = some v := by
  induction m with
  | nil => simp [setAssoc, lookupAssoc]
  | cons p rest ih =>
      obtain ⟨k', w⟩ := p
      by_cases h : k' = k
      · simp [setAssoc, lookupAssoc, h]
      · simp [setAssoc, lookupAssoc, h, ih]

theorem lookupAssoc_setAssoc_ne {α : Type} (m : List (String × α)) (k k' : String) (v : α)
    (h : k ≠ k') : lookupAssoc (setAssoc m k v) k' = lookupAssoc m k' := by
  induction m with
  | nil => simp [setAssoc, lookupAssoc, h]
  | cons p rest ih =>
      obtain ⟨k0, w⟩ := p
      by_cases h0 : k0 = k
      · subst h0
        simp [setAssoc, lookupAssoc, h]
      · simp [setAssoc, lookupAssoc, h0, ih]

-- How one commit transforms the committed node's history: the new history
-- is the tail end of (old ++ [samp]), with exactly the oldest entries
-- dropped when the cap would be exceeded (truncated subtraction makes the
-- uncapped case a drop of 0).

theorem histOf_setAssoc_self (m : List (String × List Sample)) (k : String)
    (v : List Sample) : histOf (setAssoc m k v) k = v := by
  unfold histOf
  rw [lookupAssoc_setAssoc_self]
  rfl

theorem histOf_commit_self (st : State) (n : Node) (samp : Sample) :
    histOf (st.commit n samp).history n.name
      = (histOf st.history n.name ++ [samp]).drop
          ((histOf st.history n.name).length + 1 - st.historyLimit) := by
  simp only [State.commit]
  rw [histOf_setAssoc_self]
  by_cases h : st.historyLimit < (histOf st.history n.name ++ [samp]).length
  · rw [if_pos h]
    congr 1
    simp
  · rw [if_neg h]
    have hlen : (histOf st.history n.name).length + 1 ≤ st.historyLimit := by
      simp at h
      omega
    rw [Nat.sub_eq_zero_of_le hlen, List.drop_zero]

theorem histOf_commit_ne (st : State) (n : Node) (samp : Sample) (b : String)
    (h : n.name ≠ b) :
    histOf (st.commit n samp).history b = histOf st.history b := by
  unfold State.commit histOf
  simp only [lookupAssoc_setAssoc_ne _ _ _ _ h]

theorem latest_commit_self (st : State) (n : Node) (samp : Sample) :
    lookupAssoc (st.commit n samp).latest n.name = some samp := by
  unfold State.commit
  simp [lookupAssoc_setAssoc_self]

theorem latest_commit_ne (st : State) (n : Node) (samp : Sample) (b : String)
    (h : n.name ≠ b) :
    lookupAssoc (st.commit n samp).latest b = lookupAssoc st.latest b := by
  unfold State.commit
  simp [lookupAssoc_setAssoc_ne _ _ _ _ h]

/-- The committed node's history has length `min (old + 1) limit`. -/
theorem length_histOf_commit_self (st : State) (n : Node) (samp : Sample) :
    (histOf (st.commit n samp).history n.name).length
      = min ((histOf st.history n.name).length + 1) st.historyLimit := by
  rw [histOf_commit_self, List.length_drop]
  simp only [List.length_append, List.length_singleton]
  omega

/-- One commit preserves the cap on every node's history length. -/
theorem commit_preserves_bound (st : State) (n : Node) (samp : Sample)
    (h : ∀ name, (histOf st.history name).length ≤ st.historyLimit) :
    ∀ name, (histOf (st.commit n samp).history name).length ≤ st.historyLimit := by
  intro name
  by_cases hn : n.name = name
  · subst hn
    rw [length_histOf_commit_self]
    omega
  · rw [histOf_commit_ne st n samp name hn]
    exact h name

theorem commit_historyLimit (st : State) (n : Node) (samp : Sample) :
    (st.commit n samp).historyLimit = st.historyLimit := rfl

theorem commitAll_bound (limit : ℕ) (nodes : List Node) (ops : List (Node × Sample)) :
    ((commitAll limit nodes ops).historyLimit = limit)
    ∧ ∀ name, (histOf (commitAll limit nodes ops).history name).length ≤ limit := by
  unfold commitAll
  suffices h : ∀ st : State,
      (∀ name, (histOf st.history name).length ≤ st.historyLimit) →
      ((ops.foldl (fun st p => st.commit p.1 p.2) st).historyLimit = st.historyLimit
        ∧ ∀ name,
          (histOf (ops.foldl (fun st p => st.commit p.1 p.2) st).history name).length
            ≤ st.historyLimit) by
    have := h (initState limit nodes) (by intro name; simp [initState, histOf, lookupAssoc])
    simpa [initState] using this
  induction ops with
  | nil => intro st hst; exact ⟨rfl, hst⟩
  | cons p rest ih =>
      intro st hst
      have hstep := commit_preserves_bound st p.1 p.2 hst
      have := ih (st.commit p.1 p.2) hstep
      simpa [List.foldl_cons, commit_historyLimit] using this

/-- C1: for every node and after any number of commits, the node's history
length never exceeds the configured historyLimit; and a single commit turns
the history into the tail end of (old ++ [new sample]), i.e. the oldest
entries are the ones evicted and the survivors are the most recent entries
in their original order (a suffix of the appended sequence). -/
theorem C1_history_bounded_fifo (limit : ℕ) (nodes : List Node)
    (ops : List (Node × Sample)) (name : String) :
    (histOf (commitAll limit nodes ops).history name).length ≤ limit
    ∧ ∀ (st : State) (n : Node) (samp : Sample),
        histOf (st.commit n samp).history n.name
          = (histOf st.history n.name ++ [samp]).drop
              ((histOf st.history n.name).length + 1 - st.historyLimit)
        ∧ List.IsSuffix (histOf (st.commit n samp).history n.name)
            (histOf st.history n.name ++ [samp]) := by
  refine ⟨(commitAll_bound limit nodes ops).2 name, ?_⟩
  intro st n samp
  refine ⟨histOf_commit_self st n samp, ?_⟩
  rw [histOf_commit_self]
  exact List.drop_suffix _ _

/-- C2: after every commit of a Sample for a node, the latest entry for that
node and the last element of that node's history are the committed sample
(reference identity in the Go code is rendered as value equality in this
pure embedding); requires the positive history cap that loadConfig
guarantees. -/
theorem C2_latest_matches_history_tail (st : State) (n : Node) (samp : Sample)
    (h : 1 ≤ st.historyLimit) :
    lookupAssoc (st.commit n samp).latest n.name = some samp
    ∧ (histOf (st.commit n samp).history n.name).getLast? = some samp := by
  refine ⟨latest_commit_self st n samp, ?_⟩
  rw [histOf_commit_self]
  have hk : (histOf st.history n.name).length + 1 - st.historyLimit
      ≤ (histOf st.history n.name).length := by omega
  rw [List.drop_append_of_le_length hk]
  exact List.getLast?_concat _

theorem C2_witness :
    1 ≤ (initState 500 [nodeEx]).historyLimit
    ∧ (lookupAssoc ((initState 500 [nodeEx]).commit nodeEx sampleEx).latest nodeEx.name
          = some sampleEx
       ∧ (histOf ((initState 500 [nodeEx]).commit nodeEx sampleEx).history nodeEx.name).getLast?
          = some sampleEx) :=
  ⟨by decide,
   C2_latest_matches_history_tail (initState 500 [nodeEx]) nodeEx sampleEx (by decide)⟩

/-- C5: committing one node's sample leaves every other node's history and
latest entry unchanged (so the other node's sample count, contents and
error state are untouched). -/
theorem C5_commit_frame (st : State) (n : Node) (samp : Sample) (b : String)
    (h : n.name ≠ b) :
    histOf (st.commit n samp).history b = histOf st.history b
    ∧ lookupAssoc (st.commit n samp).latest b = lookupAssoc st.latest b :=
  ⟨histOf_commit_ne st n samp b h, latest_commit_ne st n samp b h⟩

theorem C5_witness :
    nodeEx.name ≠ nodeEx2.name
    ∧ (histOf ((initState 500 [nodeEx, nodeEx2]).commit nodeEx sampleEx).history nodeEx2.name
        = histOf (initState 500 [nodeEx, nodeEx2]).history nodeEx2.name
       ∧ lookupAssoc ((initState 500 [nodeEx, nodeEx2]).commit nodeEx sampleEx).latest nodeEx2.name
        = lookupAssoc (initState 500 [nodeEx, nodeEx2]).latest nodeEx2.name) :=
  ⟨by decide,
   C5_commit_frame (initState 500 [nodeEx, nodeEx2]) nodeEx sampleEx nodeEx2.name (by decide)⟩

/-- C4: in every committed Sample, the error description is non-empty iff
the probe failed; a failed probe carries the zero metrics payload and a
successful probe carries exactly the decoded payload with no error —
the two are mutually exclusive. Assumes the Go error messages supplied by
the environment are non-empty, as real Go errors are. -/
theorem C4_error_metrics_exclusive (n : Node) (env : ProbeEnv) (now : ℕ)
    (h : env.errsNonempty = true) :
    ((mkSample now n (fetchOnce n env)).error ≠ "" ↔ (fetchOnce n env).err.isSome = true)
    ∧ ((fetchOnce n env).err.isSome = true →
        (mkSample now n (fetchOnce n env)).agent = AgentMetrics.zero)
    ∧ (∀ am, (fetchOnce n env).err = none → env.decodeRes = Except.ok am →
        (mkSample now n (fetchOnce n env)).agent = am
        ∧ (mkSample now n (fetchOnce n env)).error = "") := by
  obtain ⟨pe, host, de, he, dr, ms⟩ := env
  simp only [ProbeEnv.errsNonempty] at h
  cases pe <;> cases de <;> cases he <;> cases dr <;>
    simp_all [fetchOnce, mkSample]

theorem C4_witness :
    envDialFailEx.errsNonempty = true
    ∧ (((mkSample 0 nodeEx (fetchOnce nodeEx envDialFailEx)).error ≠ ""
          ↔ (fetchOnce nodeEx envDialFailEx).err.isSome = true)
       ∧ ((fetchOnce nodeEx envDialFailEx).err.isSome = true →
            (mkSample 0 nodeEx (fetchOnce nodeEx envDialFailEx)).agent = AgentMetrics.zero)
       ∧ (∀ am, (fetchOnce nodeEx envDialFailEx).err = none →
            envDialFailEx.decodeRes = Except.ok am →
            (mkSample 0 nodeEx (fetchOnce nodeEx envDialFailEx)).agent = am
            ∧ (mkSample 0 nodeEx (fetchOnce nodeEx envDialFailEx)).error = "")) :=
  ⟨by decide, C4_error_metrics_exclusive nodeEx envDialFailEx 0 (by decide)⟩

/-- C9: the raw connectivity check dials the host on port 80 when the host
lacks an explicit port (no colon), dials the host as given otherwise, and
the metrics fetch always uses the node's configured base address verbatim
with the fixed sub-path /metrics appended. -/
theorem C9_dial_port_and_fetch_url (n : Node) (env : ProbeEnv) :
    (hasColon env.host = false → dialTarget env.host = env.host ++ ":80")
    ∧ (hasColon env.host = true → dialTarget env.host = env.host)
    ∧ metricsURL n = n.url ++ "/metrics" := by
  refine ⟨fun h => ?_, fun h => ?_, rfl⟩ <;> simp [dialTarget, h]

theorem C9_witness :
    (hasColon envDialFailEx.host = false
      ∧ dialTarget envDialFailEx.host = envDialFailEx.host ++ ":80")
    ∧ (hasColon envPortEx.host = true
      ∧ dialTarget envPortEx.host = envPortEx.host)
    ∧ metricsURL nodeEx = nodeEx.url ++ "/metrics" :=
  ⟨⟨by decide, (C9_dial_port_and_fetch_url nodeEx envDialFailEx).1 (by decide)⟩,
   ⟨by decide, (C9_dial_port_and_fetch_url nodeEx envPortEx).2.1 (by decide)⟩,
   (C9_dial_port_and_fetch_url nodeEx envDialFailEx).2.2⟩

/-- C10: a probe attempt that fails at any stage (URL parse, TCP dial, HTTP
fetch, body decode) yields latency 0 regardless of the elapsed time the
environment reports, and so does the Sample committed from it; hence a
nonzero latency appears only in successful Samples. -/
theorem C10_failed_probe_latency_zero (n : Node) (env : ProbeEnv) (now : ℕ)
    (h : (fetchOnce n env).err.isSome = true) :
    (fetchOnce n env).lat = 0
    ∧ (mkSample now n (fetchOnce n env)).latencyMs = 0 := by
  obtain ⟨pe, host, de, he, dr, ms⟩ := env
  cases pe <;> cases de <;> cases he <;> cases dr <;> simp_all [fetchOnce, mkSample]

theorem C10_witness :
    (fetchOnce nodeEx envDialFailEx).err.isSome = true
    ∧ ((fetchOnce nodeEx envDialFailEx).lat = 0
       ∧ (mkSample 1700000000000000000 nodeEx (fetchOnce nodeEx envDialFailEx)).latencyMs
          = 0) :=
  ⟨by decide,
   C10_failed_probe_latency_zero nodeEx envDialFailEx 1700000000000000000 (by decide)⟩

/-- C8: the network throughput values computed by the agent are always
non-negative, for every state of the counters — including the very first
reading (zero rates) and counter resets, where the uint64 subtraction wraps
to a non-negative value — because the counter deltas are non-negative and
the elapsed window used as divisor is always positive. -/
theorem C8_net_rates_nonneg (st : NetAgentState) (env : NetEnv) :
    0 ≤ (computeNet st env).1.txBytesPerSec
    ∧ 0 ≤ (computeNet st env).1.rxBytesPerSec := by
  cases h : st.lastTime with
  | none => simp [computeNet, h]
  | some t0 =>
      constructor <;>
      · simp only [computeNet, h]
        apply div_nonneg (by positivity)
        split <;> split
        any_goals norm_num
        all_goals (rename_i hx; linarith [not_le.mp hx])

-- Rounding error bounds for the CSV formatting.

theorem abs_roundHalfEven_sub_le (q : ℚ) : |(roundHalfEven q : ℚ) - q| ≤ 1/2 := by
  have h1 : (⌊q⌋ : ℚ) ≤ q := Int.floor_le q
  have h2 : q < ⌊q⌋ + 1 := Int.lt_floor_add_one q
  unfold roundHalfEven
  split_ifs with ha hb hc <;> rw [abs_le] <;> push_cast <;> constructor <;> linarith

theorem abs_quantize_sub_le (d : ℕ) (q : ℚ) :
    |quantize d q - q| ≤ 1 / (2 * 10 ^ d) := by
  have hp : (0:ℚ) < 10 ^ d := by positivity
  have key : quantize d q - q = ((roundHalfEven (q * 10 ^ d) : ℚ) - q * 10 ^ d) / 10 ^ d := by
    unfold quantize
    field_simp
    ring
  rw [key, abs_div, abs_of_pos hp]
  have h := abs_roundHalfEven_sub_le (q * 10 ^ d)
  have step : |(roundHalfEven (q * 10 ^ d) : ℚ) - q * 10 ^ d| / 10 ^ d
      ≤ (1/2) / 10 ^ d := by
    apply div_le_div_of_nonneg_right h hp.le
  calc |(roundHalfEven (q * 10 ^ d) : ℚ) - q * 10 ^ d| / 10 ^ d
      ≤ (1/2) / 10 ^ d := step
    _ = 1 / (2 * 10 ^ d) := by ring

/-- C3 counterexample: querying an unknown (never probed) node name returns
JSON null — Go encodes the nil slice `s.history[name]` as null — not an
empty JSON array as the claim states. -/
theorem C3_counterexample :
    handleHistory (initState 500 [nodeEx]) "X" = Json.null
    ∧ Json.null ≠ Json.arr [] :=
  ⟨rfl, fun hcontra => Json.noConfusion hcontra⟩

/-- C3 (amended): with a non-empty node parameter, an unknown or
never-probed node yields JSON null (not an error); a known node yields the
JSON array of its history; omitting the parameter yields the full
name-to-history mapping object. -/
theorem C3_amended_history_endpoint (st : State) (name : String) (h : name ≠ "") :
    (lookupAssoc st.history name = none → handleHistory st name = Json.null)
    ∧ (∀ l, lookupAssoc st.history name = some l →
        handleHistory st name = Json.arr (l.map encodeSample))
    ∧ handleHistory st "" = Json.obj
        (st.history.map (fun p => (p.1, Json.arr (p.2.map encodeSample)))) := by
  refine ⟨fun hl => ?_, fun l hl => ?_, ?_⟩
  · simp [handleHistory, h, hl]
  · simp [handleHistory, h, hl]
  · simp [handleHistory]

theorem C3_witness :
    ("X" : String) ≠ ""
    ∧ ((lookupAssoc (initState 500 [nodeEx]).history "X" = none →
          handleHistory (initState 500 [nodeEx]) "X" = Json.null)
       ∧ (∀ l, lookupAssoc (initState 500 [nodeEx]).history "X" = some l →
          handleHistory (initState 500 [nodeEx]) "X" = Json.arr (l.map encodeSample))
       ∧ handleHistory (initState 500 [nodeEx]) "" = Json.obj
           ((initState 500 [nodeEx]).history.map
             (fun p => (p.1, Json.arr (p.2.map encodeSample))))) :=
  ⟨by decide, C3_amended_history_endpoint (initState 500 [nodeEx]) "X" (by decide)⟩

/-- C6 counterexample: the CSV export renders tx/rx rates with "%.0f" and
timestamps at whole-second RFC 3339 precision, so a fractional tx rate
(0.3 bytes/sec) and a timestamp with a 0.5 s sub-second part do not survive
the CSV round trip, contrary to the claim that every non-percentage field
is reproduced exactly. -/
theorem C6_counterexample :
    (csvDecodeSample (csvEncodeSample nodeEx sampleFracEx)).agent.net.txBytesPerSec
      ≠ sampleFracEx.agent.net.txBytesPerSec
    ∧ (csvDecodeSample (csvEncodeSample nodeEx sampleFracEx)).time
      ≠ sampleFracEx.time := by
  constructor
  · simp only [csvDecodeSample, csvEncodeSample, sampleFracEx]
    norm_num [quantize, roundHalfEven]
  · decide

/-- C6 (amended): the JSON export reproduces every listed field exactly;
the CSV round trip reproduces latency and uptime exactly, timestamps to
whole seconds (sub-second part dropped), CPU and memory percentages to two
decimal places (error at most 1/200), and tx/rx rates to whole bytes/sec
(error at most 1/2). -/
theorem C6_roundtrip_amended (n : Node) (s : Sample) :
    ((csvDecodeSample (csvEncodeSample n s)).latencyMs = s.latencyMs
     ∧ (csvDecodeSample (csvEncodeSample n s)).agent.uptimeSec = s.agent.uptimeSec
     ∧ (csvDecodeSample (csvEncodeSample n s)).time = s.time / 1000000000 * 1000000000
     ∧ |(csvDecodeSample (csvEncodeSample n s)).agent.cpuPercent
         - s.agent.cpuPercent| ≤ 1/200
     ∧ |(csvDecodeSample (csvEncodeSample n s)).agent.memPercent
         - s.agent.memPercent| ≤ 1/200
     ∧ |(csvDecodeSample (csvEncodeSample n s)).agent.net.txBytesPerSec
         - s.agent.net.txBytesPerSec| ≤ 1/2
     ∧ |(csvDecodeSample (csvEncodeSample n s)).agent.net.rxBytesPerSec
         - s.agent.net.rxBytesPerSec| ≤ 1/2)
    ∧ jsonDecodeSample (jsonExportSample s) = s.exportFields := by
  have h200 : (1:ℚ) / (2 * 10 ^ 2) = 1/200 := by norm_num
  have h2 : (1:ℚ) / (2 * 10 ^ 0) = 1/2 := by norm_num
  refine ⟨⟨rfl, rfl, rfl, ?_, ?_, ?_, ?_⟩, rfl⟩
  · have h := abs_quantize_sub_le 2 s.agent.cpuPercent
    rw [h200] at h
    simpa [csvDecodeSample, csvEncodeSample] using h
  · have h := abs_quantize_sub_le 2 s.agent.memPercent
    rw [h200] at h
    simpa [csvDecodeSample, csvEncodeSample] using h
  · have h := abs_quantize_sub_le 0 s.agent.net.txBytesPerSec
    rw [h2] at h
    simpa [csvDecodeSample, csvEncodeSample] using h
  · have h := abs_quantize_sub_le 0 s.agent.net.rxBytesPerSec
    rw [h2] at h
    simpa [csvDecodeSample, csvEncodeSample] using h

/-- C7: the CSV export's first record is exactly the header
time,node,group,latency_ms,cpu_pct,mem_pct,tx_bps,rx_bps,uptime_sec,
followed by exactly one row per historical sample across the configured
nodes (in configuration order), each row carrying nine cells whose first is
the sample's timestamp rendered in UTC RFC 3339. -/
theorem C7_csv_export_shape (st : State) :
    handleExportCSV st
      = ["time", "node", "group", "latency_ms", "cpu_pct", "mem_pct",
         "tx_bps", "rx_bps", "uptime_sec"]
        :: st.nodes.flatMap (fun n => (histOf st.history n.name).map (csvRowStrings n))
    ∧ (handleExportCSV st).tail.length
        = (st.nodes.map (fun n => (histOf st.history n.name).length)).sum
    ∧ ∀ r ∈ (handleExportCSV st).tail, ∃ n samp,
        n ∈ st.nodes ∧ samp ∈ histOf st.history n.name
        ∧ r = csvRowStrings n samp ∧ r.length = 9
        ∧ r.head? = some (rfc3339UTC samp.time) := by
  refine ⟨rfl, ?_, ?_⟩
  · simp [handleExportCSV, List.length_flatMap, Function.comp_def]
  · intro r hr
    simp only [handleExportCSV, List.tail_cons] at hr
    obtain ⟨n, hn, hr2⟩ := List.mem_flatMap.mp hr
    obtain ⟨samp, hs, rfl⟩ := List.mem_map.mp hr2
    exact ⟨n, samp, hn, hs, rfl, rfl, rfl⟩

end Monitor
